import Mathlib

/-!
Verification development for the UPAY document-intake dashboard.

Shallow embedding of the client-side source (the authoritative, later
variants, per the repository's own documentation): the session/token
manager (`lib/auth.js` as embedded in `src/README.md`), the shared file
validators (`lib/utils.js`, `lib/constants.js`), the Upload view's inline
validation (`components/UploadPage.jsx`), the Login view's portal gating
(`components/LoginPage.jsx`), the Review view's finalize action and field
classification (`components/ReviewPage.jsx`), and the Attendance schema
constraint (`api/models.py` backup).

Browser storage is a record of three optional string slots; HTTP traffic
is modelled by oracles mapping a call index to an outcome, so a run of a
wrapper is a pure function of the oracle and the starting state, and the
number of outbound calls is part of the result.
-/

/-- JavaScript string truthiness for a `localStorage.getItem` result:
`null` (absent) and the empty string are falsy. -/
def truthyStr : Option String → Bool
  | none => false
  | some s => !(s == "")

/-- The three persistent browser-storage slots used by `lib/auth.js`
(keys `access`, `refresh`, `authUser`). -/
structure Store where
  access : Option String
  refresh : Option String
  authUser : Option String
deriving Repr, DecidableEq

/-- `getAccessToken()`: read-only lookup of the `access` slot. -/
def getAccessToken (st : Store) : Option String := st.access

/-- `getRefreshToken()`: read-only lookup of the `refresh` slot. -/
def getRefreshToken (st : Store) : Option String := st.refresh

/-- `saveTokens(access, refresh, user)`: writes each value only when it is
truthy (for the user object: present); never clears a slot it was not given. -/
def saveTokens (access refresh user : Option String) (st : Store) : Store where
  access := if truthyStr access then access else st.access
  refresh := if truthyStr refresh then refresh else st.refresh
  authUser := if user.isSome then user else st.authUser

/-- `clearTokens()`: removes all three stored values. -/
def clearTokens (_ : Store) : Store := ⟨none, none, none⟩

/-- `isAuthenticated()`: true iff an access token is present (truthy). -/
def isAuthenticated (st : Store) : Bool := truthyStr (getAccessToken st)

/-- `res.ok` of the Fetch API: status in the 2xx range. -/
def resOk (status : Nat) : Bool := 200 ≤ status && status ≤ 299

/-- Outcome of one HTTP POST to the token-refresh endpoint, as the client
sees it: a network-level throw, or a response with a status and a JSON
body carrying optional `access` / `refresh` strings. -/
inductive RefreshOut where
  | resp (status : Nat) (access : Option String) (refresh : Option String)
  | netErr
deriving Repr, DecidableEq

/-- Outcome of one HTTP call to an ordinary (target) endpoint: a
network-level throw, or a response with a status. -/
inductive FetchOut where
  | resp (status : Nat)
  | netErr
deriving Repr, DecidableEq

/-- `refreshAccessToken()` from `lib/auth.js` (later variant).
`rEp i` is the backend's answer to the `i`-th refresh POST issued so far
(`rCount` posts were already made by earlier calls). Returns the new
access token (or `none`), the updated store, and the new refresh-POST
count. No stored refresh token: returns `none` with no HTTP call.
Network failure or non-2xx status: clears all tokens and returns `none`.
2xx with truthy `access` in the body: saves the new access token and the
body's refresh token when one was issued (else re-saves the old one),
and returns the new access token. -/
def refreshAccessToken (rEp : Nat → RefreshOut) (rCount : Nat) (st : Store) :
    Option String × Store × Nat :=
  if !(truthyStr (getRefreshToken st)) then (none, st, rCount)
  else
    match rEp rCount with
    | .netErr => (none, clearTokens st, rCount + 1)
    | .resp status acc ref =>
        if !(resOk status) then (none, clearTokens st, rCount + 1)
        else if truthyStr acc then
          (acc, saveTokens acc (if truthyStr ref then ref else getRefreshToken st) none st,
            rCount + 1)
        else (none, st, rCount + 1)

/-- The browser-visible state a `fetchWithAuth` run touches: the token
store and `window.location.href` (recorded when the code assigns it). -/
structure AuthState where
  store : Store
  location : Option String
deriving Repr, DecidableEq

/-- Result of one `fetchWithAuth` run: the returned response status or the
thrown error message, the final browser state, how many calls went out to
the target URL, and the total refresh-POST count afterwards. -/
structure FetchResult where
  outcome : Except String Nat
  state : AuthState
  targetCalls : Nat
  refreshAfter : Nat
deriving Repr

def errNoToken : String := "No authentication token available"
def errAuthFailed : String := "Authentication failed"
def errNetwork : String := "NetworkError when attempting to fetch resource"
def loginPath : String := "/login"

/-- `fetchWithAuth(url, options)` from `lib/auth.js` (later variant).
`tgt i` is the backend's answer to the `i`-th outbound call to the target
URL within this run. Missing/empty access token: throws immediately with
no call. A 401 first response triggers exactly one `refreshAccessToken`;
on a truthy new token the request is re-issued once and that second
response (or its network throw) is the result; on a falsy refresh result
the browser is routed to `/login` and an authentication failure is
thrown. Any non-401 first response is returned unmodified. -/
def fetchWithAuth (tgt : Nat → FetchOut) (rEp : Nat → RefreshOut) (rCount : Nat)
    (st : AuthState) : FetchResult :=
  if !(truthyStr (getAccessToken st.store)) then
    ⟨.error errNoToken, st, 0, rCount⟩
  else
    match tgt 0 with
    | .netErr => ⟨.error errNetwork, st, 1, rCount⟩
    | .resp status =>
        if status == 401 then
          let rres := refreshAccessToken rEp rCount st.store
          if !(truthyStr rres.1) then
            ⟨.error errAuthFailed, ⟨rres.2.1, some loginPath⟩, 1, rres.2.2⟩
          else
            match tgt 1 with
            | .netErr => ⟨.error errNetwork, ⟨rres.2.1, st.location⟩, 2, rres.2.2⟩
            | .resp s2 => ⟨.ok s2, ⟨rres.2.1, st.location⟩, 2, rres.2.2⟩
        else ⟨.ok status, st, 1, rCount⟩

/-- JSON whitespace accepted by `JSON.parse` (space, tab, LF, CR). -/
def jsonWsChar (c : Char) : Bool := c == ' ' || c == '\t' || c == '\n' || c == '\r'

def skipJsonWs : List Char → List Char
  | [] => []
  | c :: cs => if jsonWsChar c then skipJsonWs cs else c :: cs

def quoteChar : Char := Char.ofNat 34

def backslashChar : Char := Char.ofNat 92

def lbraceChar : Char := Char.ofNat 123

def rbraceChar : Char := Char.ofNat 125

/-- A parsed ECMAScript JSON value (numbers kept as their lexeme). -/
inductive JsonValue where
  | null
  | bool (b : Bool)
  | num (lexeme : List Char)
  | str (chars : List Char)
  | arr (elems : List JsonValue)
  | obj (members : List (List Char × JsonValue))
deriving Repr

def isHexDigitChar (c : Char) : Bool :=
  c.isDigit || ('a' ≤ c && c ≤ 'f') || ('A' ≤ c && c ≤ 'F')

def hexVal (c : Char) : Nat :=
  if c.isDigit then c.toNat - 48
  else if 'a' ≤ c && c ≤ 'f' then c.toNat - 87
  else c.toNat - 55

/-- JSON string body parser (after the opening quote): returns the decoded
characters and the input remaining after the closing quote. -/
def parseJsonString : Nat → List Char → Option (List Char × List Char)
  | 0, _ => none
  | Nat.succ fuel, cs =>
    match cs with
    | [] => none
    | c :: rest =>
      if c == quoteChar then some ([], rest)
      else if c == backslashChar then
        match rest with
        | [] => none
        | e :: rest2 =>
          let cont := fun (d : Char) (rs : List Char) =>
            match parseJsonString fuel rs with
            | some (tail, rem) => some (d :: tail, rem)
            | none => none
          if e == quoteChar || e == backslashChar || e == '/' then cont e rest2
          else if e == 'b' then cont (Char.ofNat 8) rest2
          else if e == 'f' then cont (Char.ofNat 12) rest2
          else if e == 'n' then cont (Char.ofNat 10) rest2
          else if e == 'r' then cont (Char.ofNat 13) rest2
          else if e == 't' then cont (Char.ofNat 9) rest2
          else if e == 'u' then
            match rest2 with
            | h1 :: h2 :: h3 :: h4 :: rest3 =>
              if isHexDigitChar h1 && isHexDigitChar h2 && isHexDigitChar h3
                  && isHexDigitChar h4 then
                cont (Char.ofNat (((hexVal h1 * 16 + hexVal h2) * 16 + hexVal h3) * 16
                  + hexVal h4)) rest3
              else none
            | _ => none
          else none
      else if c.toNat < 32 then none
      else
        match parseJsonString fuel rest with
        | some (tail, rem) => some (c :: tail, rem)
        | none => none

def takeDigits : List Char → List Char × List Char
  | [] => ([], [])
  | c :: cs =>
      if c.isDigit then
        match takeDigits cs with
        | (ds, r) => (c :: ds, r)
      else ([], c :: cs)

/-- JSON integer part: `0`, or a nonzero digit followed by digits. -/
def parseIntPart : List Char → Option (List Char × List Char)
  | [] => none
  | c :: cs =>
      if c == '0' then some ([c], cs)
      else if c.isDigit then
        match takeDigits cs with
        | (ds, r) => some (c :: ds, r)
      else none

/-- JSON fraction part: empty, or a dot followed by one or more digits. -/
def parseFracPart : List Char → Option (List Char × List Char)
  | [] => some ([], [])
  | c :: cs =>
      if c == '.' then
        match takeDigits cs with
        | ([], _) => none
        | (ds, r) => some (c :: ds, r)
      else some ([], c :: cs)

/-- JSON exponent part: empty, or `e`/`E`, an optional sign, then digits. -/
def parseExpPart : List Char → Option (List Char × List Char)
  | [] => some ([], [])
  | c :: cs =>
      if c == 'e' || c == 'E' then
        match cs with
        | d :: cs2 =>
            if d == '+' || d == '-' then
              match takeDigits cs2 with
              | ([], _) => none
              | (ds, r) => some (c :: d :: ds, r)
            else
              match takeDigits (d :: cs2) with
              | ([], _) => none
              | (ds, r) => some (c :: ds, r)
        | [] => none
      else some ([], c :: cs)

def parseJsonNumber (cs : List Char) : Option (JsonValue × List Char) :=
  let p := match cs with
    | c :: rest => if c == '-' then ([c], rest) else (([] : List Char), cs)
    | [] => ([], [])
  match parseIntPart p.2 with
  | none => none
  | some (ip, cs2) =>
    match parseFracPart cs2 with
    | none => none
    | some (fp, cs3) =>
      match parseExpPart cs3 with
      | none => none
      | some (ep, cs4) => some (.num (p.1 ++ ip ++ fp ++ ep), cs4)

mutual

/-- Recursive-descent model of `JSON.parse`'s value grammar; `fuel`
strictly exceeds the nesting depth whenever it exceeds the input length. -/
def parseJsonValue : Nat → List Char → Option (JsonValue × List Char)
  | 0, _ => none
  | Nat.succ fuel, cs =>
    match skipJsonWs cs with
    | [] => none
    | c :: rest =>
      if c == quoteChar then
        match parseJsonString (rest.length + 1) rest with
        | some (s, rem) => some (.str s, rem)
        | none => none
      else if c == lbraceChar then
        match skipJsonWs rest with
        | d :: rest2 =>
            if d == rbraceChar then some (.obj [], rest2)
            else
              match parseJsonMembers fuel (d :: rest2) with
              | some (ms, rem) => some (.obj ms, rem)
              | none => none
        | [] => none
      else if c == '[' then
        match skipJsonWs rest with
        | d :: rest2 =>
            if d == ']' then some (.arr [], rest2)
            else
              match parseJsonElems fuel (d :: rest2) with
              | some (vs, rem) => some (.arr vs, rem)
              | none => none
        | [] => none
      else if c == 't' then
        match rest with
        | 'r' :: 'u' :: 'e' :: rem => some (.bool true, rem)
        | _ => none
      else if c == 'f' then
        match rest with
        | 'a' :: 'l' :: 's' :: 'e' :: rem => some (.bool false, rem)
        | _ => none
      else if c == 'n' then
        match rest with
        | 'u' :: 'l' :: 'l' :: rem => some (.null, rem)
        | _ => none
      else parseJsonNumber (c :: rest)

/-- One or more `"key": value` members, then `,` more members or `}`. -/
def parseJsonMembers : Nat → List Char →
    Option (List (List Char × JsonValue) × List Char)
  | 0, _ => none
  | Nat.succ fuel, cs =>
    match cs with
    | [] => none
    | c :: rest =>
      if c == quoteChar then
        match parseJsonString (rest.length + 1) rest with
        | some (key, rem) =>
          match skipJsonWs rem with
          | d :: rem2 =>
            if d == ':' then
              match parseJsonValue fuel rem2 with
              | some (v, rem3) =>
                match skipJsonWs rem3 with
                | e :: rem4 =>
                  if e == ',' then
                    match parseJsonMembers fuel (skipJsonWs rem4) with
                    | some (ms, rem5) => some ((key, v) :: ms, rem5)
                    | none => none
                  else if e == rbraceChar then some ([(key, v)], rem4)
                  else none
                | [] => none
              | none => none
            else none
          | [] => none
        | none => none
      else none

/-- One or more array elements, then `,` more elements or `]`. -/
def parseJsonElems : Nat → List Char → Option (List JsonValue × List Char)
  | 0, _ => none
  | Nat.succ fuel, cs =>
    match parseJsonValue fuel cs with
    | some (v, rem) =>
      match skipJsonWs rem with
      | d :: rem2 =>
        if d == ',' then
          match parseJsonElems fuel rem2 with
          | some (vs, rem3) => some (v :: vs, rem3)
          | none => none
        else if d == ']' then some ([v], rem2)
        else none
      | [] => none
    | none => none

end

/-- `JSON.parse(text)` as a total function: `some` parsed value, or `none`
where the real parser throws a `SyntaxError`. -/
def jsonParse (s : String) : Option JsonValue :=
  match parseJsonValue (s.data.length + 1) s.data with
  | some (v, rem) => if (skipJsonWs rem).isEmpty then some v else none
  | none => none

def syntaxErrorMsg : String := "SyntaxError: Unexpected token in JSON"

/-- `getAuthUser()` from `lib/auth.js` (later variant):
`return user ? JSON.parse(user) : null;`. There is no `try`/`catch`, so on a
stored value `JSON.parse` rejects, the exception propagates (`Except.error`);
an absent or empty stored value yields `null` (`Except.ok none`). -/
def getAuthUser (st : Store) : Except String (Option JsonValue) :=
  match st.authUser with
  | none => .ok none
  | some u =>
      if u == "" then .ok none
      else
        match jsonParse u with
        | some v => .ok (some v)
        | none => .error syntaxErrorMsg

/-- The pass/fail split of `handleApiResponse(response)`: it returns the
parsed body when `response.ok` holds and throws otherwise (the thrown
message comes from the error body, which this model does not carry). -/
def handleApiOk (status : Nat) : Bool := resOk status

inductive FinalizeOutcome where
  | success (navTarget : String) (delayMs : Nat)
  | failure
deriving Repr, DecidableEq

/-- Result of one `acceptAndFinalize` run: the outcome (success carries the
navigation target and the delay in milliseconds before navigating), the
final browser state, and the outbound call counts per endpoint. -/
structure FinalizeResult where
  outcome : FinalizeOutcome
  state : AuthState
  finalizeCalls : Nat
  patchCalls : Nat
deriving Repr

def bulkReviewPath : String := "/bulk-review"

/-- `acceptAndFinalize()` from `ReviewPage.jsx`: first `fetchWithAuth` on the
per-document finalize endpoint (`fin`); only if that call THROWS does the
inner `catch` run the fallback `fetchWithAuth` PATCH (`patch`) setting
`status` to `approved`. The response of whichever call produced one is put
through `handleApiResponse`; on its success a success message is shown and
navigation to the bulk review list is scheduled after 2000 ms, otherwise
the outer `catch` records a failure. -/
def acceptAndFinalize (fin patch : Nat → FetchOut) (rEp : Nat → RefreshOut)
    (st : AuthState) : FinalizeResult :=
  let r1 := fetchWithAuth fin rEp 0 st
  match r1.outcome with
  | .error _ =>
      let r2 := fetchWithAuth patch rEp r1.refreshAfter r1.state
      match r2.outcome with
      | .error _ => ⟨.failure, r2.state, r1.targetCalls, r2.targetCalls⟩
      | .ok s2 =>
          if handleApiOk s2 then
            ⟨.success bulkReviewPath 2000, r2.state, r1.targetCalls, r2.targetCalls⟩
          else ⟨.failure, r2.state, r1.targetCalls, r2.targetCalls⟩
  | .ok s1 =>
      if handleApiOk s1 then
        ⟨.success bulkReviewPath 2000, r1.state, r1.targetCalls, 0⟩
      else ⟨.failure, r1.state, r1.targetCalls, 0⟩

/-- `ALLOWED_FILE_TYPES` from `lib/constants.js`. -/
def allowedFileTypes : List String :=
  ["image/jpeg", "image/jpg", "image/png", "application/pdf"]

/-- `ALLOWED_FILE_EXTENSIONS` from `lib/constants.js`. -/
def allowedFileExtensions : List String := [".pdf", ".jpg", ".jpeg", ".png"]

/-- `MAX_FILE_SIZE` from `lib/constants.js`: 10 * 1024 * 1024 bytes. -/
def maxFileSize : Nat := 10 * 1024 * 1024

/-- The three `File` attributes the validators read. -/
structure JsFile where
  name : String
  type : String
  size : Nat
deriving Repr, DecidableEq

/-- `String.prototype.split` with a one-character separator: every
separator occurrence cuts, so `"a.b."` yields `a`, `b`, `""`, and the
empty input yields one empty segment. -/
def jsSplitChars (sep : Char) : List Char → List (List Char)
  | [] => [[]]
  | c :: cs =>
      match jsSplitChars sep cs with
      | [] => [[]]
      | seg :: rest => if c == sep then [] :: seg :: rest else (c :: seg) :: rest

/-- `Array.prototype.pop()` on a split result: the last element (a split
result is never empty). -/
def jsPop (l : List (List Char)) : List Char := l.getLastD []

/-- `'.' + file.name.split('.').pop().toLowerCase()` from `validateFile` in
`lib/utils.js` (`Char.toLower` agrees with `toLowerCase` on the ASCII range
the allowed-extension comparison lives in). -/
def fileExtensionOf (name : String) : String :=
  ⟨'.' :: (jsPop (jsSplitChars '.' name.data)).map Char.toLower⟩

/-- The identical computation duplicated inline in
`UploadPage.validateFiles`. -/
def uploadFileExtensionOf (name : String) : String :=
  ⟨'.' :: (jsPop (jsSplitChars '.' name.data)).map Char.toLower⟩

def msgInvalidType : String := "Invalid file type. Allowed types: PDF, JPG, JPEG, PNG"

/-- Both validators interpolate `ALLOWED_FILE_EXTENSIONS.join(', ')`. -/
def msgInvalidExt : String :=
  "Invalid file extension. Allowed extensions: "
    ++ String.intercalate (", ") allowedFileExtensions

/-- `lib/utils.js` interpolates `formatFileSize(MAX_FILE_SIZE)` = "10 MB". -/
def msgTooLargeUtils : String := "File too large. Maximum size is 10 MB"

/-- The inline Upload-view message spells the limit without a space. -/
def msgTooLargeUpload : String := "File too large. Maximum size is 10MB"

structure ValidationResult where
  isValid : Bool
  error : Option String
deriving Repr, DecidableEq

/-- `validateFile(file)` from `lib/utils.js`: three independent membership /
bound checks, in order — declared media type against the allowed types,
extension against the allowed extensions, byte size against the maximum —
the first failing one short-circuiting with its message. -/
def validateFile (file : JsFile) : ValidationResult :=
  if !(allowedFileTypes.contains file.type) then ⟨false, some msgInvalidType⟩
  else if !(allowedFileExtensions.contains (fileExtensionOf file.name)) then
    ⟨false, some msgInvalidExt⟩
  else if file.size > maxFileSize then ⟨false, some msgTooLargeUtils⟩
  else ⟨true, none⟩

def colonSep : String := ": "

/-- The per-file loop body of `UploadPage.validateFiles`: unlike the shared
helper it does not short-circuit — one message per failing check, in check
order, each prefixed by the file name. -/
def uploadFileErrors (file : JsFile) : List String :=
  (if !(allowedFileTypes.contains file.type) then
      [file.name ++ colonSep ++ msgInvalidType]
    else [])
  ++ (if !(allowedFileExtensions.contains (uploadFileExtensionOf file.name)) then
      [file.name ++ colonSep ++ msgInvalidExt]
    else [])
  ++ (if file.size > maxFileSize then
      [file.name ++ colonSep ++ msgTooLargeUpload]
    else [])

/-- `UploadPage.validateFiles(fileList)`: the for-loop accumulating every
violation message. -/
def uploadValidateFiles (files : List JsFile) : List String :=
  files.foldl (fun errs f => errs ++ uploadFileErrors f) []

/-- The Upload view state `onFilesChange` touches: the selected-files state,
the error banner, and the file input's value. -/
structure UploadState where
  files : List JsFile
  error : Option String
  inputValue : String
deriving Repr, DecidableEq

def newlineS : String := "\n"

/-- `UploadPage.onFilesChange(e)`: validates the whole selection; on any
violation clears the selection and the file input and joins every message
with newlines into the error banner; otherwise stores the selection and
clears the error. -/
def onFilesChange (selected : List JsFile) (st : UploadState) : UploadState :=
  let validationErrors := uploadValidateFiles selected
  if validationErrors.length > 0 then
    ⟨[], some (String.intercalate newlineS validationErrors), ""⟩
  else
    ⟨selected, none, st.inputValue⟩

/-- Spec-side reading of "violates the allowed-type, allowed-extension, or
maximum-size rule", for the Upload view's inline checks. -/
def fileViolates (file : JsFile) : Bool :=
  !(allowedFileTypes.contains file.type)
    || !(allowedFileExtensions.contains (uploadFileExtensionOf file.name))
    || file.size > maxFileSize

/-- One extracted field as `ReviewPage` normalizes it into state
(`field_value` defaults to the empty string, `validation_status` to
`passed`). -/
structure ExtractedField where
  field_name : String
  field_value : String
  validation_status : String
deriving Repr, DecidableEq

inductive RingState where
  | red
  | yellow
  | neutral
deriving Repr, DecidableEq

def passedS : String := "passed"

/-- The field-row class chain of the `ReviewPage` render:
`f.validation_status !== 'passed'` → red ring, else `!f.field_value`
(string falsiness, i.e. the empty string) → yellow ring, else neutral. -/
def fieldRing (f : ExtractedField) : RingState :=
  if !(f.validation_status == passedS) then .red
  else if f.field_value == "" then .yellow
  else .neutral

/-- `fields.filter(f => f.validation_status !== 'passed').length`. -/
def failedFields (fields : List ExtractedField) : Nat :=
  (fields.filter (fun f => !(f.validation_status == passedS))).length

/-- The whitespace class `String.prototype.trim` strips, restricted to the
ASCII range (space, tab, LF, VT, FF, CR). -/
def jsWsChar (c : Char) : Bool :=
  c == ' ' || c == '\t' || c == '\n' || c == '\r'
    || c == Char.ofNat 11 || c == Char.ofNat 12

/-- `String.prototype.trim()`: drops leading and trailing whitespace. -/
def jsTrim (s : String) : String :=
  ⟨((s.data.dropWhile jsWsChar).reverse.dropWhile jsWsChar).reverse⟩

/-- `fields.filter(f => !f.field_value || f.field_value.trim() === '').length`. -/
def missingFields (fields : List ExtractedField) : Nat :=
  (fields.filter (fun f => f.field_value == "" || jsTrim f.field_value == "")).length

/-- The profile fields `LoginPage.onSubmit` reads; each is optional because
`profile?.x === v` is a strict comparison against a possibly-absent field. -/
structure Profile where
  role : Option String
  is_staff : Option Bool
  is_superuser : Option Bool
deriving Repr, DecidableEq

def adminS : String := "admin"

def userS : String := "user"

/-- `profile?.role === 'admin' || profile?.is_staff === true ||
profile?.is_superuser === true`. -/
def isAdminAccount (p : Profile) : Bool :=
  p.role == some adminS || p.is_staff == some true || p.is_superuser == some true

def boolOrNullS : Option Bool → String
  | some true => "true"
  | some false => "false"
  | none => "null"

/-- `JSON.stringify` of the modelled profile fields (the cached-user blob
stored by the login flow; no verified property inspects its contents). -/
def profileStringify (p : Profile) : String :=
  "\x7b\"role\":"
    ++ (match p.role with
        | some r => "\"" ++ r ++ "\""
        | none => "null")
    ++ ",\"is_staff\":" ++ boolOrNullS p.is_staff
    ++ ",\"is_superuser\":" ++ boolOrNullS p.is_superuser ++ "\x7d"

/-- Outcome of the login flow: the store afterwards, the navigation target
(if any), and the inline error (if any). -/
structure LoginStep where
  store : Store
  nav : Option String
  error : Option String
deriving Repr, DecidableEq

def adminUsersPath : String := "/admin/users"

def homePath : String := "/home"

def msgNotAdmin : String :=
  "Your account is not an admin. Please sign in to the user portal or use an admin account."

def msgUseAdminPortal : String :=
  "Admin accounts must sign in via the Admin portal. Please select \"Admin\" and sign in."

/-- The token-success path of `LoginPage.onSubmit` after a successful
profile fetch: tokens saved (before the profile fetch, and again with the
profile cached), then the portal/role gate decides between an inline error
(no navigation) and a navigation target (`/admin/users` or `/home`). -/
def loginAfterProfile (access refresh : String) (profile : Profile)
    (portal : String) (st : Store) : LoginStep :=
  let st1 := saveTokens (some access) (some refresh) none st
  let st2 := saveTokens (some access) (some refresh)
    (some (profileStringify profile)) st1
  if portal == adminS then
    if !(isAdminAccount profile) then ⟨st2, none, some msgNotAdmin⟩
    else ⟨st2, some adminUsersPath, none⟩
  else if portal == userS then
    if isAdminAccount profile then ⟨st2, none, some msgUseAdminPortal⟩
    else ⟨st2, some homePath, none⟩
  else ⟨st2, none, none⟩

/-- An Attendance row from the backend schema
(`api/models.py` backup): student and center references, date, status. -/
structure AttendanceRow where
  student : Nat
  center : Nat
  date : String
  status : String
deriving Repr, DecidableEq

/-- The column pair named by `Meta.unique_together = ('student', 'date')`. -/
def attendanceKey (a : AttendanceRow) : Nat × String := (a.student, a.date)

/-- The schema's declared invariant: Attendance rows are pairwise distinct
on (student, date). -/
def attendanceUnique (db : List AttendanceRow) : Prop :=
  db.Pairwise (fun a b => attendanceKey a ≠ attendanceKey b)

/-- Modelled from the spec: the database-level insert guarded by the
declared `unique_together ('student', 'date')` constraint (the schema file
declares the constraint; the enforcing engine is external) — persisting a
row whose (student, date) pair already exists is refused. -/
def insertAttendance (db : List AttendanceRow) (a : AttendanceRow) :
    Option (List AttendanceRow) :=
  if db.any (fun b => attendanceKey b == attendanceKey a) then none
  else some (a :: db)

def tokA : String := "tokA"

def tokR : String := "tokR"

def tokB : String := "tokB"

def badJsonS : String := "\x7b"

def emptyS : String := ""

def nullJsonS : String := "null"

def xpdfFile : JsFile := { name := "x.pdf", type := "image/png", size := 100 }

def bareExtNames : List String := ["pdf", "jpg", "jpeg", "png"]

/-- `String.prototype.toLowerCase` restricted to the ASCII range the
extension comparison lives in. -/
def jsToLowerCase (s : String) : String := ⟨s.data.map Char.toLower⟩

def pdfUpperFile : JsFile := { name := "PDF", type := "application/pdf", size := 100 }

def wsField : ExtractedField :=
  { field_name := "total", field_value := " ", validation_status := "passed" }

def okField : ExtractedField :=
  { field_name := "name", field_value := "John", validation_status := "passed" }

def attRowA : AttendanceRow :=
  { student := 1, center := 1, date := "2024-01-01", status := "present" }

def attRowB : AttendanceRow :=
  { student := 1, center := 2, date := "2024-01-01", status := "absent" }

/-- Helper: a 2xx refresh response carrying a truthy access token makes
`refreshAccessToken` return that token. -/
theorem refreshAccessToken_ok_fst (rEp : Nat → RefreshOut) (st : Store)
    (status : Nat) (a : String) (r : Option String)
    (h1 : truthyStr st.refresh = true) (h2 : rEp 0 = .resp status (some a) r)
    (h3 : resOk status = true) (h4 : (a == "") = false) :
    (refreshAccessToken rEp 0 st).1 = some a := by
  have ha : truthyStr (some a) = true := by simp [truthyStr, h4]
  simp [refreshAccessToken, getRefreshToken, h1, h2, h3, ha]

/-- Helper: a non-2xx refresh response makes `refreshAccessToken` clear the
store and return no value. -/
theorem refreshAccessToken_fail_eq (rEp : Nat → RefreshOut) (st : Store)
    (status : Nat) (a r : Option String)
    (h1 : truthyStr st.refresh = true) (h2 : rEp 0 = .resp status a r)
    (h3 : resOk status = false) :
    refreshAccessToken rEp 0 st = (none, ⟨none, none, none⟩, 1) := by
  simp [refreshAccessToken, getRefreshToken, clearTokens, h1, h2, h3]

/-- C2: `refreshAccessToken`, with a stored refresh token, clears all three
stored values and returns no value on a network failure or a non-2xx
refresh status (both tokens absent afterward); on a 2xx response carrying
an access token it persists it (and the newly issued refresh token, else
the old one) and returns it, which `getAccessToken` then reflects; with no
stored refresh token it returns no value immediately with no HTTP call. -/
theorem refreshAccessToken_spec (rEp : Nat → RefreshOut) (st : Store) :
    (truthyStr st.refresh = true → rEp 0 = .netErr →
      refreshAccessToken rEp 0 st = (none, ⟨none, none, none⟩, 1))
    ∧ (∀ status a r, truthyStr st.refresh = true → rEp 0 = .resp status a r →
        resOk status = false →
        refreshAccessToken rEp 0 st = (none, ⟨none, none, none⟩, 1))
    ∧ (∀ status a r, truthyStr st.refresh = true →
        rEp 0 = .resp status (some a) r → resOk status = true →
        (a == "") = false →
        (refreshAccessToken rEp 0 st).1 = some a
        ∧ getAccessToken (refreshAccessToken rEp 0 st).2.1 = some a
        ∧ (refreshAccessToken rEp 0 st).2.1.refresh
            = (if truthyStr r then r else st.refresh)
        ∧ (refreshAccessToken rEp 0 st).2.2 = 1)
    ∧ (truthyStr st.refresh = false →
        refreshAccessToken rEp 0 st = (none, st, 0)) := by
  refine ⟨?_, ?_, ?_, ?_⟩
  · intro h1 h2
    simp [refreshAccessToken, getRefreshToken, clearTokens, h1, h2]
  · intro status a r h1 h2 h3
    simp [refreshAccessToken, getRefreshToken, clearTokens, h1, h2, h3]
  · intro status a r h1 h2 h3 h4
    have ha : truthyStr (some a) = true := by simp [truthyStr, h4]
    cases hr : truthyStr r with
    | true =>
        simp [refreshAccessToken, getRefreshToken, getAccessToken, saveTokens,
          h1, h2, h3, ha, hr]
    | false =>
        simp [refreshAccessToken, getRefreshToken, getAccessToken, saveTokens,
          h1, h2, h3, ha, hr]
  · intro h1
    simp [refreshAccessToken, getRefreshToken, h1]

/-- Witness for C2: a stored refresh token and a 400 refresh response leave
both tokens (and the cached user) absent and return no value. -/
theorem refreshAccessToken_spec_witness :
    refreshAccessToken (fun _ => RefreshOut.resp 400 none none) 0
      ⟨some tokA, some tokR, none⟩ = (none, ⟨none, none, none⟩, 1) :=
  (refreshAccessToken_spec (fun _ => RefreshOut.resp 400 none none)
    ⟨some tokA, some tokR, none⟩).2.1 400 none none (by decide) rfl (by decide)

/-- C1: `fetchWithAuth` against a stored access token issues at most two
outbound calls to the target URL. A 401 first response triggers exactly one
refresh attempt; when that refresh succeeds the request is retried exactly
once and the second response is returned whatever its status. A backend
that answers 401 twice — to the original request and then to the refresh
attempt — produces exactly two outbound calls in total (one target call
plus one refresh POST), a cleared session, forced navigation to the login
view, and a thrown authentication failure; a third call never happens. -/
theorem fetchWithAuth_retry_once (tgt : Nat → FetchOut) (rEp : Nat → RefreshOut)
    (st : AuthState) (hacc : truthyStr st.store.access = true) :
    (fetchWithAuth tgt rEp 0 st).targetCalls ≤ 2
    ∧ (∀ status a r s2, tgt 0 = .resp 401 →
        truthyStr st.store.refresh = true →
        rEp 0 = .resp status (some a) r → resOk status = true →
        (a == "") = false →
        (fetchWithAuth tgt rEp 0 st).targetCalls = 2
        ∧ (tgt 1 = .resp s2 → (fetchWithAuth tgt rEp 0 st).outcome = .ok s2))
    ∧ (∀ a r, tgt 0 = .resp 401 →
        truthyStr st.store.refresh = true →
        rEp 0 = .resp 401 a r →
        (fetchWithAuth tgt rEp 0 st).targetCalls = 1
        ∧ (fetchWithAuth tgt rEp 0 st).refreshAfter = 1
        ∧ (fetchWithAuth tgt rEp 0 st).targetCalls
            + (fetchWithAuth tgt rEp 0 st).refreshAfter = 2
        ∧ (fetchWithAuth tgt rEp 0 st).state.store = ⟨none, none, none⟩
        ∧ (fetchWithAuth tgt rEp 0 st).state.location = some loginPath
        ∧ (fetchWithAuth tgt rEp 0 st).outcome = .error errAuthFailed) := by
  refine ⟨?_, ?_, ?_⟩
  · cases h0 : tgt 0 with
    | netErr => simp [fetchWithAuth, getAccessToken, hacc, h0]
    | resp status =>
        by_cases h401 : (status == 401) = true
        · cases hn : truthyStr (refreshAccessToken rEp 0 st.store).1 with
          | true =>
              cases h1 : tgt 1 with
              | netErr => simp [fetchWithAuth, getAccessToken, hacc, h0, h401, hn, h1]
              | resp s2 => simp [fetchWithAuth, getAccessToken, hacc, h0, h401, hn, h1]
          | false => simp [fetchWithAuth, getAccessToken, hacc, h0, h401, hn]
        · simp [fetchWithAuth, getAccessToken, hacc, h0, h401]
  · intro status a r s2 h0 href h2 h3 h4
    have hrs := refreshAccessToken_ok_fst rEp st.store status a r href h2 h3 h4
    have hn : truthyStr (refreshAccessToken rEp 0 st.store).1 = true := by
      rw [hrs]; simp [truthyStr, h4]
    constructor
    · cases h1 : tgt 1 with
      | netErr => simp [fetchWithAuth, getAccessToken, hacc, h0, hn, h1]
      | resp s2' => simp [fetchWithAuth, getAccessToken, hacc, h0, hn, h1]
    · intro h1
      simp [fetchWithAuth, getAccessToken, hacc, h0, hn, h1]
  · intro a r h0 href h2
    have hrs := refreshAccessToken_fail_eq rEp st.store 401 a r href h2 (by decide)
    have hn : truthyStr (refreshAccessToken rEp 0 st.store).1 = false := by
      rw [hrs]; simp [truthyStr]
    have hst : (refreshAccessToken rEp 0 st.store).2.1 = (⟨none, none, none⟩ : Store) := by
      rw [hrs]
    have hrc : (refreshAccessToken rEp 0 st.store).2.2 = 1 := by rw [hrs]
    simp [fetchWithAuth, getAccessToken, hacc, h0, hn, hst, hrc]

/-- Witness for C1: a backend answering 401 then 200, with a refresh
endpoint issuing a fresh token, yields exactly two target calls and the
second (200) response. -/
theorem fetchWithAuth_retry_once_witness :
    (fetchWithAuth (fun i => if i == 0 then FetchOut.resp 401 else FetchOut.resp 200)
      (fun _ => RefreshOut.resp 200 (some tokB) none) 0
      ⟨⟨some tokA, some tokR, none⟩, none⟩).targetCalls = 2
    ∧ (fetchWithAuth (fun i => if i == 0 then FetchOut.resp 401 else FetchOut.resp 200)
      (fun _ => RefreshOut.resp 200 (some tokB) none) 0
      ⟨⟨some tokA, some tokR, none⟩, none⟩).outcome = .ok 200 := by
  have h := (fetchWithAuth_retry_once
    (fun i => if i == 0 then FetchOut.resp 401 else FetchOut.resp 200)
    (fun _ => RefreshOut.resp 200 (some tokB) none)
    ⟨⟨some tokA, some tokR, none⟩, none⟩ (by decide)).2.1 200 tokB none 200
    rfl (by decide) rfl (by decide) (by decide)
  exact ⟨h.1, h.2 rfl⟩

/-- Counterexample for C3: a backend whose per-document finalize endpoint
always fails — here with an HTTP 500 response on every call — while the
PATCH endpoint accepts the approval, does NOT produce a successful
finalize outcome: `fetchWithAuth` returns (does not throw on) an error
status, so the inner catch never runs the PATCH fallback, and the
response handler's error aborts the action with no PATCH attempted. -/
theorem acceptAndFinalize_http_error_counterexample :
    (acceptAndFinalize (fun _ => FetchOut.resp 500) (fun _ => FetchOut.resp 200)
      (fun _ => RefreshOut.resp 200 (some tokB) none)
      ⟨⟨some tokA, some tokR, none⟩, none⟩).outcome = .failure
    ∧ (acceptAndFinalize (fun _ => FetchOut.resp 500) (fun _ => FetchOut.resp 200)
      (fun _ => RefreshOut.resp 200 (some tokB) none)
      ⟨⟨some tokA, some tokR, none⟩, none⟩).patchCalls = 0 := by
  constructor <;> rfl

/-- C3 (amended): in the Review view's accept-and-finalize action the POST
to the finalize endpoint is attempted first; when that call throws (a
network-level failure) the action falls back to a PATCH setting status to
approved, and a 2xx PATCH response produces the successful outcome —
success message and navigation to the Bulk Review List after the
documented 2000 ms delay. A finalize endpoint that instead fails with a
non-2xx HTTP response (other than 401) does not trigger the fallback: the
action fails without attempting the PATCH. -/
theorem acceptAndFinalize_fallback (fin patch : Nat → FetchOut)
    (rEp : Nat → RefreshOut) (st : AuthState)
    (hacc : truthyStr st.store.access = true) :
    (∀ s, fin 0 = .netErr → patch 0 = .resp s → handleApiOk s = true →
      (acceptAndFinalize fin patch rEp st).outcome = .success bulkReviewPath 2000
      ∧ (acceptAndFinalize fin patch rEp st).finalizeCalls = 1
      ∧ (acceptAndFinalize fin patch rEp st).patchCalls = 1)
    ∧ (∀ s, fin 0 = .resp s → handleApiOk s = false → (s == 401) = false →
      (acceptAndFinalize fin patch rEp st).outcome = .failure
      ∧ (acceptAndFinalize fin patch rEp st).patchCalls = 0) := by
  constructor
  · intro s hf hp hok
    have hne : (s == 401) = false := by
      simp only [handleApiOk, resOk, Bool.and_eq_true, decide_eq_true_eq] at hok
      simp only [beq_eq_false_iff_ne, ne_eq]
      omega
    refine ⟨?_, ?_, ?_⟩ <;>
      simp [acceptAndFinalize, fetchWithAuth, getAccessToken, hacc, hf, hp, hne, hok]
  · intro s hf hok hne
    refine ⟨?_, ?_⟩ <;>
      simp [acceptAndFinalize, fetchWithAuth, getAccessToken, hacc, hf, hok, hne]

/-- Witness for C3: a throwing finalize endpoint plus a 200 PATCH yields
the success outcome with the 2000 ms navigation delay and one PATCH call. -/
theorem acceptAndFinalize_fallback_witness :
    (acceptAndFinalize (fun _ => FetchOut.netErr) (fun _ => FetchOut.resp 200)
      (fun _ => RefreshOut.resp 200 (some tokB) none)
      ⟨⟨some tokA, some tokR, none⟩, none⟩).outcome = .success bulkReviewPath 2000
    ∧ (acceptAndFinalize (fun _ => FetchOut.netErr) (fun _ => FetchOut.resp 200)
      (fun _ => RefreshOut.resp 200 (some tokB) none)
      ⟨⟨some tokA, some tokR, none⟩, none⟩).finalizeCalls = 1
    ∧ (acceptAndFinalize (fun _ => FetchOut.netErr) (fun _ => FetchOut.resp 200)
      (fun _ => RefreshOut.resp 200 (some tokB) none)
      ⟨⟨some tokA, some tokR, none⟩, none⟩).patchCalls = 1 :=
  (acceptAndFinalize_fallback (fun _ => FetchOut.netErr) (fun _ => FetchOut.resp 200)
    (fun _ => RefreshOut.resp 200 (some tokB) none)
    ⟨⟨some tokA, some tokR, none⟩, none⟩ (by decide)).1 200 rfl rfl (by decide)

/-- Counterexample for C7: with the single character `\x7b` stored under the
cached-user key, `getAuthUser` does not return normally — the stored string
is truthy, `JSON.parse` rejects it, and with no `try`/`catch` around the
call the exception propagates instead of a no-value return. -/
theorem getAuthUser_throws_counterexample :
    getAuthUser ⟨none, none, some badJsonS⟩ = .error syntaxErrorMsg := by rfl

/-- C7 (amended): `getAuthUser` parses the stored JSON user object and
returns no value when the stored value is absent (or the falsy empty
string); when the stored string parses as JSON it returns the parsed
object; but when a non-empty stored string is unparsable, the `JSON.parse`
exception propagates — the operation fails rather than returning no value,
so not every stored string returns normally. -/
theorem getAuthUser_spec (st : Store) :
    (st.authUser = none → getAuthUser st = .ok none)
    ∧ (st.authUser = some emptyS → getAuthUser st = .ok none)
    ∧ (∀ u v, st.authUser = some u → jsonParse u = some v →
        getAuthUser st = .ok (some v))
    ∧ (∀ u, st.authUser = some u → (u == emptyS) = false → jsonParse u = none →
        getAuthUser st = .error syntaxErrorMsg) := by
  refine ⟨?_, ?_, ?_, ?_⟩
  · intro h
    simp [getAuthUser, h]
  · intro h
    simp [getAuthUser, h, emptyS]
  · intro u v hu hp
    have hne : (u == emptyS) = false := by
      by_cases h : u = emptyS
      · subst h
        rw [show jsonParse emptyS = none from rfl] at hp
        cases hp
      · simp [h]
    simp [getAuthUser, hu, hp, emptyS] at hne ⊢
    simp [hne, hp]
  · intro u hu hne hp
    simp [getAuthUser, hu, emptyS] at hne ⊢
    simp [hne, hp]

/-- Witness for C7: a stored `"null"` parses and is returned as a value. -/
theorem getAuthUser_spec_witness :
    getAuthUser ⟨none, none, some nullJsonS⟩ = .ok (some JsonValue.null) :=
  (getAuthUser_spec ⟨none, none, some nullJsonS⟩).2.2.1 nullJsonS JsonValue.null
    rfl rfl

/-- Counterexample for C4: a file named x.pdf whose declared media type is
image/png (size within the limit) is NOT rejected: image/png is in the
allowed-types list and .pdf is in the allowed-extensions list, and neither
validator cross-checks the type against the extension, so the shared
helper and the inline duplicate both accept it. -/
theorem validateFile_no_crosscheck_counterexample :
    validateFile xpdfFile = ⟨true, none⟩ ∧ uploadFileErrors xpdfFile = [] := by
  constructor <;> rfl

/-- C4 (amended): both the shared `validateFile` helper and the Upload
view's inline duplicate accept a file of exactly 10,485,760 bytes whose
media type and extension are each in their allowed list, and reject one of
10,485,761 bytes with the same type and extension with the size error; a
file named x.pdf with media type image/png, however, is accepted by both —
the type and extension checks are independent list memberships with no
cross-consistency check. -/
theorem validateFile_boundary (f : JsFile)
    (htype : allowedFileTypes.contains f.type = true)
    (hext : allowedFileExtensions.contains (fileExtensionOf f.name) = true) :
    (f.size = 10485760 →
      validateFile f = ⟨true, none⟩ ∧ uploadFileErrors f = [])
    ∧ (f.size = 10485761 →
      validateFile f = ⟨false, some msgTooLargeUtils⟩
      ∧ uploadFileErrors f = [f.name ++ colonSep ++ msgTooLargeUpload])
    ∧ validateFile xpdfFile = ⟨true, none⟩
    ∧ uploadFileErrors xpdfFile = [] := by
  have htypeM : f.type ∈ allowedFileTypes := by simpa using htype
  have hextM : fileExtensionOf f.name ∈ allowedFileExtensions := by simpa using hext
  have hexuM : uploadFileExtensionOf f.name ∈ allowedFileExtensions := hextM
  refine ⟨?_, ?_, rfl, rfl⟩
  · intro hs
    constructor
    · simp [validateFile, htypeM, hextM, hs, maxFileSize]
    · simp [uploadFileErrors, htypeM, hexuM, hs, maxFileSize]
  · intro hs
    constructor
    · simp [validateFile, htypeM, hextM, hs, maxFileSize]
    · simp [uploadFileErrors, htypeM, hexuM, hs, maxFileSize]

/-- Witness for C4 (amended): a PDF named a.pdf of exactly 10,485,760
bytes passes both validators. -/
theorem validateFile_boundary_witness :
    validateFile { name := "a.pdf", type := "application/pdf", size := 10485760 }
      = ⟨true, none⟩
    ∧ uploadFileErrors { name := "a.pdf", type := "application/pdf", size := 10485760 }
      = [] :=
  (validateFile_boundary
    { name := "a.pdf", type := "application/pdf", size := 10485760 }
    (by decide) (by decide)).1 rfl

/-- Counterexample for C10: the dotless filename PDF is not literally one
of pdf/jpg/jpeg/png, yet with an allowed media type and size it is NOT
rejected for extension — the computed extension lower-cases the whole
name to .pdf, which is allowed, so both validators accept the file. -/
theorem dotless_uppercase_counterexample :
    pdfUpperFile.name.data.all (fun c => !(c == '.')) = true
    ∧ bareExtNames.contains pdfUpperFile.name = false
    ∧ validateFile pdfUpperFile = ⟨true, none⟩
    ∧ uploadFileErrors pdfUpperFile = [] := by
  refine ⟨by decide, by decide, rfl, rfl⟩

/-- Splitting on a character that does not occur in the input yields the
whole input as the single segment. -/
theorem jsSplitChars_no_sep (sep : Char) (cs : List Char)
    (h : cs.all (fun c => !(c == sep)) = true) : jsSplitChars sep cs = [cs] := by
  induction cs with
  | nil => rfl
  | cons c cs ih =>
      simp only [List.all_cons, Bool.and_eq_true, Bool.not_eq_true'] at h
      simp [jsSplitChars, ih h.2, h.1]

/-- For a dotless name the computed extension is a dot followed by the
whole lower-cased name. -/
theorem fileExtensionOf_dotless (name : String)
    (h : name.data.all (fun c => !(c == '.')) = true) :
    fileExtensionOf name = "." ++ jsToLowerCase name := by
  rw [fileExtensionOf, jsSplitChars_no_sep '.' name.data h]
  rfl

/-- Prepending the dot is injective, so membership of `"." ++ s` in the
allowed-extension list is membership of `s` among the four bare names. -/
theorem dot_ext_mem (s : String) :
    allowedFileExtensions.contains ("." ++ s) = bareExtNames.contains s := by
  obtain ⟨l⟩ := s
  simp only [allowedFileExtensions, bareExtNames, List.contains_eq_any_beq,
    List.any_cons, List.any_nil]
  have hinj : ∀ (m : List Char),
      ((("." ++ (⟨l⟩ : String)) == (⟨'.' :: m⟩ : String))) = ((⟨l⟩ : String) == (⟨m⟩ : String)) := by
    intro m
    show ((⟨'.' :: l⟩ : String) == (⟨'.' :: m⟩ : String)) = _
    have key : ((⟨'.' :: l⟩ : String) = (⟨'.' :: m⟩ : String))
        ↔ ((⟨l⟩ : String) = (⟨m⟩ : String)) := by
      constructor
      · intro h
        have hd : ('.' :: l) = ('.' :: m) := congrArg String.data h
        injection hd with _ htail
        rw [htail]
      · intro h
        have htail : l = m := congrArg String.data h
        rw [htail]
    rcases hb : ((⟨l⟩ : String) == (⟨m⟩ : String)) with _ | _
    · rw [beq_eq_false_iff_ne] at hb
      rw [beq_eq_false_iff_ne]
      exact fun hc => hb (key.mp hc)
    · rw [beq_iff_eq] at hb
      rw [beq_iff_eq]
      exact key.mpr hb
  rw [show (".pdf" : String) = ⟨'.' :: ("pdf" : String).data⟩ from rfl,
    show (".jpg" : String) = ⟨'.' :: ("jpg" : String).data⟩ from rfl,
    show (".jpeg" : String) = ⟨'.' :: ("jpeg" : String).data⟩ from rfl,
    show (".png" : String) = ⟨'.' :: ("png" : String).data⟩ from rfl,
    hinj, hinj, hinj, hinj]

/-- C10 (amended): for every file whose name contains no dot, both the
shared helper and the Upload view's inline duplicate compute the extension
as a dot followed by the entire lower-cased filename (the last dot-segment
of a dotless name is the whole name), and this computation never fails;
consequently, with an allowed media type and a size within the limit, a
dotless file passes validation exactly when its lower-cased name is one of
pdf, jpg, jpeg, png, and any dotless file whose lower-cased name is not
among those four is rejected for extension by both validators. -/
theorem dotless_extension_spec (f : JsFile)
    (hdot : f.name.data.all (fun c => !(c == '.')) = true)
    (htype : allowedFileTypes.contains f.type = true)
    (hsize : f.size ≤ maxFileSize) :
    fileExtensionOf f.name = "." ++ jsToLowerCase f.name
    ∧ uploadFileExtensionOf f.name = "." ++ jsToLowerCase f.name
    ∧ ((validateFile f).isValid = true
        ↔ bareExtNames.contains (jsToLowerCase f.name) = true)
    ∧ (bareExtNames.contains (jsToLowerCase f.name) = false →
        validateFile f = ⟨false, some msgInvalidExt⟩
        ∧ uploadFileErrors f = [f.name ++ colonSep ++ msgInvalidExt]) := by
  have hE : fileExtensionOf f.name = "." ++ jsToLowerCase f.name :=
    fileExtensionOf_dotless f.name hdot
  have hEU : uploadFileExtensionOf f.name = "." ++ jsToLowerCase f.name := hE
  have hmem : allowedFileExtensions.contains (fileExtensionOf f.name)
      = bareExtNames.contains (jsToLowerCase f.name) := by
    rw [hE, dot_ext_mem]
  have htypeM : f.type ∈ allowedFileTypes := by simpa using htype
  have hns : ¬ (f.size > maxFileSize) := Nat.not_lt.mpr hsize
  refine ⟨hE, hEU, ?_, ?_⟩
  · cases hb : bareExtNames.contains (jsToLowerCase f.name) with
    | true =>
        have hextM : fileExtensionOf f.name ∈ allowedFileExtensions := by
          have h2 := hmem.trans hb
          simpa using h2
        simp [validateFile, htypeM, hextM, hns]
    | false =>
        have hextM : ¬ (fileExtensionOf f.name ∈ allowedFileExtensions) := by
          have h2 := hmem.trans hb
          simpa using h2
        simp [validateFile, htypeM, hextM]
  · intro hb
    have hextM : ¬ (fileExtensionOf f.name ∈ allowedFileExtensions) := by
      have h2 := hmem.trans hb
      simpa using h2
    have hexuM : ¬ (uploadFileExtensionOf f.name ∈ allowedFileExtensions) := hextM
    constructor
    · simp [validateFile, htypeM, hextM]
    · simp [uploadFileErrors, htypeM, hexuM, hns]

/-- Witness for C10 (amended): a file literally named pdf with an allowed
media type and a small size computes extension .pdf and passes. -/
theorem dotless_extension_spec_witness :
    fileExtensionOf ({ name := "pdf", type := "application/pdf", size := 100 } : JsFile).name
      = "." ++ jsToLowerCase ({ name := "pdf", type := "application/pdf", size := 100 } : JsFile).name
    ∧ (validateFile { name := "pdf", type := "application/pdf", size := 100 }).isValid = true := by
  have h := dotless_extension_spec
    { name := "pdf", type := "application/pdf", size := 100 }
    (by decide) (by decide) (by decide)
  exact ⟨h.1, (h.2.2.1).mpr (by decide)⟩

/-- The error accumulator of `UploadPage.validateFiles` is the
concatenation of each file's messages. -/
theorem uploadValidateFiles_eq_join (l : List JsFile) (acc : List String) :
    l.foldl (fun errs f => errs ++ uploadFileErrors f) acc
      = acc ++ (l.map uploadFileErrors).flatten := by
  induction l generalizing acc with
  | nil => simp
  | cons f l ih => simp [List.foldl_cons, ih, List.append_assoc]

/-- A file contributes no inline violation message exactly when it violates
none of the three rules. -/
theorem uploadFileErrors_nil_iff (f : JsFile) :
    uploadFileErrors f = [] ↔ fileViolates f = false := by
  by_cases h1 : f.type ∈ allowedFileTypes <;>
    by_cases h2 : uploadFileExtensionOf f.name ∈ allowedFileExtensions <;>
      by_cases h3 : f.size > maxFileSize <;>
        simp [uploadFileErrors, fileViolates, h1, h2, h3]

/-- C5: on file selection in the Upload view, if at least one selected file
violates the allowed-type, allowed-extension, or maximum-size rule, the
entire selection is rejected — the selected-files state becomes empty, the
file input is cleared, and the error is all violation messages joined by
newlines (no partial acceptance); when every selected file is valid, the
selection is stored and no error is set. -/
theorem onFilesChange_spec (selected : List JsFile) (st : UploadState) :
    ((∃ f, f ∈ selected ∧ fileViolates f = true) →
      onFilesChange selected st
        = ⟨[], some (String.intercalate newlineS (uploadValidateFiles selected)),
            emptyS⟩)
    ∧ ((∀ f, f ∈ selected → fileViolates f = false) →
      onFilesChange selected st = ⟨selected, none, st.inputValue⟩) := by
  have hjoin : uploadValidateFiles selected = []
      ↔ ∀ f, f ∈ selected → uploadFileErrors f = [] := by
    rw [show uploadValidateFiles selected
        = (selected.map uploadFileErrors).flatten from by
      simpa using uploadValidateFiles_eq_join selected []]
    simp [List.flatten_eq_nil_iff]
  constructor
  · rintro ⟨f, hf, hv⟩
    have hne : ¬ (uploadValidateFiles selected = []) := by
      intro hnil
      have h0 := (uploadFileErrors_nil_iff f).mp (hjoin.mp hnil f hf)
      rw [hv] at h0
      cases h0
    have hpos : (uploadValidateFiles selected).length > 0 :=
      List.length_pos.mpr hne
    simp [onFilesChange, hpos, emptyS]
  · intro hall
    have hnil : uploadValidateFiles selected = [] :=
      hjoin.mpr fun f hf => (uploadFileErrors_nil_iff f).mpr (hall f hf)
    simp [onFilesChange, hnil]

/-- Witness for C5: a single valid selection is stored with no error. -/
theorem onFilesChange_spec_witness :
    onFilesChange [{ name := "a.pdf", type := "application/pdf", size := 100 }]
      ⟨[], none, emptyS⟩
      = ⟨[{ name := "a.pdf", type := "application/pdf", size := 100 }], none, emptyS⟩ :=
  (onFilesChange_spec [{ name := "a.pdf", type := "application/pdf", size := 100 }]
    ⟨[], none, emptyS⟩).2 (by decide)

/-- C6: after successful token issuance and profile fetch in the Login
view, an account resolved as administrative (role admin, or staff flag, or
superuser flag) that selected the User portal is rejected with the
admin-must-use-admin-portal message and no navigation occurs while the
tokens remain stored; the same account having selected the Admin portal
navigates to the Admin Users view; a non-administrative account selecting
the Admin portal is rejected without navigation, and selecting the User
portal navigates to Home. -/
theorem loginAfterProfile_spec (access refresh : String) (p : Profile)
    (st : Store) (hacc : (access == "") = false)
    (href : (refresh == "") = false) :
    (isAdminAccount p = true →
      loginAfterProfile access refresh p userS st
        = ⟨⟨some access, some refresh, some (profileStringify p)⟩, none,
            some msgUseAdminPortal⟩)
    ∧ (isAdminAccount p = true →
      (loginAfterProfile access refresh p adminS st).nav = some adminUsersPath
      ∧ (loginAfterProfile access refresh p adminS st).error = none)
    ∧ (isAdminAccount p = false →
      (loginAfterProfile access refresh p adminS st).nav = none
      ∧ (loginAfterProfile access refresh p adminS st).error = some msgNotAdmin)
    ∧ (isAdminAccount p = false →
      (loginAfterProfile access refresh p userS st).nav = some homePath
      ∧ (loginAfterProfile access refresh p userS st).error = none) := by
  have hau : (userS == adminS) = false := by decide
  have huu : (userS == userS) = true := by decide
  have haa : (adminS == adminS) = true := by decide
  refine ⟨?_, ?_, ?_, ?_⟩
  · intro hadm
    simp [loginAfterProfile, saveTokens, truthyStr, hacc, href, hau, huu, hadm]
  · intro hadm
    constructor <;> simp [loginAfterProfile, haa, hadm]
  · intro hadm
    constructor <;> simp [loginAfterProfile, haa, hadm]
  · intro hadm
    constructor <;> simp [loginAfterProfile, hau, huu, hadm]

/-- Witness for C6: an admin-role account signing in through the User
portal keeps its tokens, gets the admin-portal message, and does not
navigate. -/
theorem loginAfterProfile_spec_witness :
    loginAfterProfile tokA tokR ⟨some adminS, none, none⟩ userS ⟨none, none, none⟩
      = ⟨⟨some tokA, some tokR,
          some (profileStringify ⟨some adminS, none, none⟩)⟩, none,
          some msgUseAdminPortal⟩ :=
  (loginAfterProfile_spec tokA tokR ⟨some adminS, none, none⟩ ⟨none, none, none⟩
    (by decide) (by decide)).1 (by decide)


/-- String equality via `==` agrees with propositional decidability. -/
theorem string_beq_decide (a b : String) : (a == b) = decide (a = b) := by
  by_cases h : a = b <;> simp [h, beq_eq_false_iff_ne]

/-- Counterexample for C8: a field whose value is a single space with
validation status passed is counted as missing (its trimmed value is
empty) but its ring is NOT yellow — the row class tests string falsiness
(`!f.field_value`), which a whitespace-only value does not satisfy, so the
row renders neutral. -/
theorem fieldRing_whitespace_counterexample :
    wsField.validation_status = passedS
    ∧ jsTrim wsField.field_value = ""
    ∧ (wsField.field_value == "") = false
    ∧ fieldRing wsField = RingState.neutral
    ∧ missingFields [wsField] = 1 := by
  refine ⟨rfl, by decide, by decide, by decide, by decide⟩

/-- C8 (amended): in the Review view's field list the ring is red exactly
when the validation status is not passed; otherwise it is yellow exactly
when the value is the empty string (a whitespace-only value renders
neutral, not yellow); the missing-fields count equals the number of fields
whose value is empty or whitespace-only, and the fields-needing-attention
count equals the number of fields whose validation status is not passed. -/
theorem fieldRing_spec (f : ExtractedField) (fields : List ExtractedField) :
    (fieldRing f = RingState.red ↔ ¬ (f.validation_status = passedS))
    ∧ (f.validation_status = passedS →
        (fieldRing f = RingState.yellow ↔ f.field_value = ""))
    ∧ failedFields fields
        = fields.countP (fun g => decide (¬ (g.validation_status = passedS)))
    ∧ missingFields fields
        = fields.countP
            (fun g => decide (g.field_value = "" ∨ jsTrim g.field_value = "")) := by
  refine ⟨?_, ?_, ?_, ?_⟩
  · cases hv : (f.validation_status == passedS) with
    | false =>
        have hne : ¬ (f.validation_status = passedS) := by simpa using hv
        simp [fieldRing, hv, hne]
    | true =>
        have heq : f.validation_status = passedS := by simpa using hv
        cases hval : (f.field_value == "") <;> simp [fieldRing, hv, hval, heq]
  · intro hp
    have hv : (f.validation_status == passedS) = true := by simp [hp]
    cases hval : (f.field_value == "") with
    | true =>
        have heq : f.field_value = "" := by simpa using hval
        simp [fieldRing, hv, hval, heq]
    | false =>
        have hne : ¬ (f.field_value = "") := by simpa using hval
        simp [fieldRing, hv, hval, hne]
  · have hfun : (fun g : ExtractedField => decide (¬ (g.validation_status = passedS)))
        = fun g => !(g.validation_status == passedS) := by
      funext g
      simp [decide_not, string_beq_decide]
    rw [failedFields, List.countP_eq_length_filter, hfun]
  · have hfun : (fun g : ExtractedField =>
          decide (g.field_value = "" ∨ jsTrim g.field_value = ""))
        = fun g => g.field_value == "" || jsTrim g.field_value == "" := by
      funext g
      simp [string_beq_decide]
    rw [missingFields, List.countP_eq_length_filter, hfun]

/-- Witness for C8 (amended): a passed field with a non-empty value has a
non-yellow (neutral) ring. -/
theorem fieldRing_spec_witness : fieldRing okField ≠ RingState.yellow := by
  have h := (fieldRing_spec okField []).2.1 rfl
  intro hy
  exact absurd (h.mp hy) (by decide)

/-- C9: in the persisted data model Attendance is unique per
(student, date): in any database satisfying the declared constraint two
distinct rows differ on the (student, date) key; the guarded insert
preserves the constraint; and persisting a second row with the same
student and date as an existing row violates the uniqueness constraint
(the insert is refused). -/
theorem attendanceUnique_spec :
    (∀ (db : List AttendanceRow), attendanceUnique db →
      ∀ a, a ∈ db → ∀ b, b ∈ db → a ≠ b → attendanceKey a ≠ attendanceKey b)
    ∧ (∀ (db : List AttendanceRow) (a : AttendanceRow) (db' : List AttendanceRow),
        attendanceUnique db → insertAttendance db a = some db' →
        attendanceUnique db')
    ∧ (∀ (db : List AttendanceRow) (a a' : AttendanceRow), a ∈ db →
        attendanceKey a' = attendanceKey a → insertAttendance db a' = none) := by
  have hsymm : Symmetric (fun a b : AttendanceRow =>
      attendanceKey a ≠ attendanceKey b) := fun x y h e => h e.symm
  refine ⟨?_, ?_, ?_⟩
  · intro db hdb a ha b hb hne
    exact List.Pairwise.forall hsymm hdb ha hb hne
  · intro db a db' hdb hins
    unfold insertAttendance at hins
    by_cases h : db.any (fun b => attendanceKey b == attendanceKey a) = true
    · simp [h] at hins
    · simp [h] at hins
      subst hins
      rw [attendanceUnique, List.pairwise_cons]
      refine ⟨?_, hdb⟩
      intro b hb heq
      apply h
      rw [List.any_eq_true]
      exact ⟨b, hb, by simp [heq]⟩
  · intro db a a' ha hk
    unfold insertAttendance
    have h : db.any (fun b => attendanceKey b == attendanceKey a') = true := by
      rw [List.any_eq_true]
      exact ⟨a, ha, by simp [hk]⟩
    simp [h]

/-- Witness for C9: persisting a second row for student 1 on 2024-01-01 is
refused. -/
theorem attendanceUnique_spec_witness :
    insertAttendance [attRowA] attRowB = none :=
  attendanceUnique_spec.2.2 [attRowA] attRowA attRowB (by simp) rfl
